import Mathlib

/-!
Shallow embedding of the invoice-to-carbon estimation pipeline
(`app.py` cascade variant and `streamlit_carbon_app.py` generic-API variant).

Modelling conventions:
* Python scalar values that flow through `dict.get`, `float(...)`, truthiness
  tests and JSON responses are modelled by `PyVal` (None, bool, number, string,
  list of strings).  Numbers are `ℚ`; JSON arrays occurring in the service
  contracts used here are keyword lists, i.e. arrays of strings.
* Raising a Python exception is modelled by `Except Unit` / `Except String`;
  `.error` means the surrounding Python code would raise.
* Each external service call (Gemini / HTTP) is modelled by an oracle value
  attached to the input: `ServiceResponse` classifies the outcome exactly as
  the `try`/`except` + regex-JSON-extraction code in the source does
  (call failed, response without a parseable JSON object, or a JSON object).
* `String.toLower`/`replace`/`strip` from Python are re-implemented over
  character lists (`lowerStr`, `removeSpaces`, `pyStrip`) so that they are
  kernel-computable; `Char.toLower` is ASCII-only, which is the fragment the
  verified claims exercise.
-/

/-- Python runtime value, restricted to the shapes that flow through the
pipeline: `None`, booleans, numbers (as `ℚ`), strings, and string lists. -/
inductive PyVal where
  | none
  | bool (b : Bool)
  | num (q : ℚ)
  | str (s : String)
  | list (xs : List String)
deriving DecidableEq, Repr

/-- Python truthiness (`bool(v)`), as used by `if analysis:`, `not keywords`,
and similar guards in the source. -/
def truthy : PyVal → Bool
  | .none => false
  | .bool b => b
  | .num q => q != 0
  | .str s => s != ""
  | .list xs => !xs.isEmpty

/-- Lowercase a string character by character (Python `str.lower`; ASCII
fragment). -/
def lowerStr (s : String) : String := String.mk (s.toList.map Char.toLower)

/-- Remove every space character (Python `str.replace(" ", "")` — only the
U+0020 space, not all whitespace). -/
def removeSpaces (s : String) : String := String.mk (s.toList.filter (fun c => c ≠ ' '))

/-- Whitespace characters stripped by Python `str.strip()`. -/
def isPySpace (c : Char) : Bool := c = ' ' || c = '\t' || c = '\n' || c = '\x0d' || c = '\x0c' || c = '\x0b'

/-- Python `str.strip()`: drop leading and trailing whitespace. -/
def pyStrip (s : String) : String :=
  String.mk (((s.toList.dropWhile isPySpace).reverse.dropWhile isPySpace).reverse)

/-- Decide whether `needle` starts `hay` (character-list comparison). -/
def leadsList (needle hay : List Char) : Bool :=
  match needle, hay with
  | [], _ => true
  | _ :: _, [] => false
  | a :: as, b :: bs => a == b && leadsList as bs

/-- Decide whether `needle` occurs contiguously inside `hay`. -/
def containsList (needle : List Char) : List Char → Bool
  | [] => needle.isEmpty
  | b :: bs => leadsList needle (b :: bs) || containsList needle bs

/-- Python `needle in hay` on strings. -/
def strContains (hay needle : String) : Bool :=
  containsList needle.toList hay.toList

/-- Value of a digit run (most significant first). -/
def digitsToNat (ds : List Char) : ℕ := ds.foldl (fun a c => 10 * a + (c.toNat - 48)) 0

/-- Parse an unsigned decimal literal `digits [. digits]` or `. digits`.
Returns `none` when the characters are not such a literal. -/
def parseUnsigned (cs : List Char) : Option ℚ :=
  let ip := cs.takeWhile Char.isDigit
  let r1 := cs.dropWhile Char.isDigit
  match r1 with
  | '.' :: r2 =>
      let fp := r2.takeWhile Char.isDigit
      let r3 := r2.dropWhile Char.isDigit
      if (ip.isEmpty && fp.isEmpty) || !r3.isEmpty then none
      else some ((digitsToNat ip : ℚ) + (digitsToNat fp : ℚ) / (10 ^ fp.length : ℚ))
  | [] => if ip.isEmpty then none else some (digitsToNat ip : ℚ)
  | _ => none

/-- Python `float(s)` on a string: strip whitespace, optional sign, decimal
literal.  (Exponents, `inf`/`nan` and underscore separators also parse in
Python; no verified claim depends on those forms, only on plain decimals
succeeding and non-numeric text failing.) -/
def parseFloatStr (s : String) : Option ℚ :=
  match (pyStrip s).toList with
  | '+' :: rest => parseUnsigned rest
  | '-' :: rest => (parseUnsigned rest).map Neg.neg
  | cs => parseUnsigned cs

/-- Python `float(v)`: numbers pass through, booleans are 1/0, numeric strings
parse; `None`, lists and non-numeric strings raise (`.error`). -/
def pyFloat : PyVal → Except Unit ℚ
  | .num q => .ok q
  | .bool b => .ok (if b then 1 else 0)
  | .str s => match parseFloatStr s with
      | some q => .ok q
      | Option.none => .error ()
  | .none => .error ()
  | .list _ => .error ()

/-- Python `q * v` for a float `q` and an arbitrary second operand: numbers and
booleans multiply, anything else raises `TypeError` (`.error`). -/
def pyMulFloat (q : ℚ) : PyVal → Except Unit ℚ
  | .num r => .ok (q * r)
  | .bool b => .ok (q * (if b then 1 else 0))
  | _ => .error ()

/-- Python `dict.get(k)` on a JSON object modelled as an association list. -/
def alistGet (o : List (String × PyVal)) (k : String) : Option PyVal :=
  (o.find? (fun kv => kv.1 = k)).map Prod.snd

/-- Decidable equality for `Except`, so that concrete runs of the embedded
functions can be checked by `decide`. -/
instance {e a : Type} [DecidableEq e] [DecidableEq a] : DecidableEq (Except e a) := fun x y =>
  match x, y with
  | .ok u, .ok v =>
    if h : u = v then .isTrue (by rw [h]) else .isFalse (fun hc => h (by injection hc))
  | .error u, .error v =>
    if h : u = v then .isTrue (by rw [h]) else .isFalse (fun hc => h (by injection hc))
  | .ok _, .error _ => .isFalse (fun hc => Except.noConfusion hc)
  | .error _, .ok _ => .isFalse (fun hc => Except.noConfusion hc)

/-- Outcome of one external service call, as classified by the source's
`try`/`except` plus regex-JSON-extraction: the call raised (`failure`), the
response text contained no parseable JSON object (`nonJson`), or a JSON object
was parsed (`json obj`). -/
inductive ServiceResponse where
  | failure
  | nonJson
  | json (obj : List (String × PyVal))
deriving DecidableEq, Repr

/-- One row of the loaded ADEME reference table (`base-carbone.csv` after
`load_ademe_data`: the factor column is numeric, rows with non-numeric factors
were dropped).  `typeLigne` is `none` when the optional column is absent. -/
structure AdemeRow where
  nom : String
  unite : String
  total : ℚ
  typeLigne : Option String
deriving DecidableEq, Repr

/-- Word characters of Python `re.findall(r'\w+', ...)`: ASCII alphanumerics,
underscore, and (approximating Unicode word characters) all non-ASCII. -/
def isWordChar (c : Char) : Bool := c.isAlphanum || c = '_' || 127 < c.toNat

/-- Accumulator-based splitter for `findallWords`. -/
def findallWordsAux (cur : List Char) : List Char → List String
  | [] => if cur.isEmpty then [] else [String.mk cur.reverse]
  | c :: cs =>
    if isWordChar c then findallWordsAux (c :: cur) cs
    else if cur.isEmpty then findallWordsAux [] cs
    else String.mk cur.reverse :: findallWordsAux [] cs

/-- Python `re.findall(r'\w+', s)`: maximal runs of word characters. -/
def findallWords (s : String) : List String := findallWordsAux [] s.toList

/-- Python `set(k.lower() for k in keywords)`, modelled as a duplicate-free
list: membership and size are the only set operations the source uses. -/
def kwSetOf (ks : List String) : List String := (ks.map lowerStr).dedup

/-- Score of one reference row against the (duplicate-free) query keyword set:
`len(search_terms.intersection(product_name_terms))` — the number of distinct
query keywords occurring among the word tokens of the lowercased row name. -/
def rowScore (searchTerms : List String) (row : AdemeRow) : ℕ :=
  (searchTerms.filter (fun t => t ∈ findallWords (lowerStr row.nom))).length

/-- The `for index, row in ademe_df.iterrows()` loop of
`search_ademe_base_carbone`: running best row and running maximal score, the
best row updated only on a strictly larger score. -/
def bestAux (searchTerms : List String) :
    Option AdemeRow → ℕ → List AdemeRow → Option AdemeRow × ℕ
  | best, maxScore, [] => (best, maxScore)
  | best, maxScore, row :: rest =>
    if maxScore < rowScore searchTerms row then
      bestAux searchTerms (some row) (rowScore searchTerms row) rest
    else
      bestAux searchTerms best maxScore rest

/-- Iterating a Python value as strings (`for k in keywords` followed by
`k.lower()`): a list yields its elements, a string yields its characters,
anything else raises. -/
def iterStrs : PyVal → Except Unit (List String)
  | .list xs => .ok xs
  | .str s => .ok (s.toList.map (fun c => String.mk [c]))
  | _ => .error ()

/-- Embedding of `search_ademe_base_carbone(keywords, ademe_df)`
(`app.py` lines 100–119): returns the best-scoring reference row when its
score reaches `max(1, len(search_terms) // 2)`, else no match; `None` table or
falsy keywords short-circuit to no match. -/
def search_ademe_base_carbone (keywords : PyVal) :
    Option (List AdemeRow) → Except Unit (Option AdemeRow)
  | Option.none => .ok Option.none
  | some tbl =>
    if !truthy keywords then .ok Option.none
    else do
      let ks ← iterStrs keywords
      let searchTerms := kwSetOf ks
      let bm := bestAux searchTerms Option.none 0 tbl
      let minRequiredScore := max 1 (searchTerms.length / 2)
      if minRequiredScore ≤ bm.2 then pure bm.1 else pure Option.none

/-- Python attribute access `.lower()` on a value expected to be a string:
non-strings raise. -/
def asStr : PyVal → Except Unit String
  | .str s => .ok s
  | _ => .error ()

/-- Embedding of `are_units_compatible(description, invoice_unit, ademe_unit)`
(`app.py` lines 122–160).  Output: the value the function returns (the raw
`.get("compatible", False)` result on the service path) paired with whether
the external judgment service was called.  The fast path compares the units
lowercased with spaces removed and makes no call. -/
def are_units_compatible (description : String) (invoice_unit : PyVal)
    (ademe_unit : String) (resp : ServiceResponse) : Except Unit (PyVal × Bool) := do
  let iu ← asStr invoice_unit
  if removeSpaces (lowerStr iu) = removeSpaces (lowerStr ademe_unit) then
    pure (.bool true, false)
  else
    match resp with
    | .failure => pure (.bool false, true)
    | .nonJson => pure (.bool false, true)
    | .json o => pure ((alistGet o "compatible").getD (.bool false), true)

/-- Embedding of `get_structured_info_from_llm` (`app.py` lines 77–98): any
service failure or response without a JSON object yields `None`; otherwise the
parsed object. -/
def get_structured_info_from_llm : ServiceResponse → Option (List (String × PyVal))
  | .failure => Option.none
  | .nonJson => Option.none
  | .json o => some o

/-- Embedding of `get_carbon_analysis_from_llm` (`app.py` lines 181–213): any
service failure or unparseable response yields `None`; otherwise the parsed
object — field presence is NOT checked. -/
def get_carbon_analysis_from_llm : ServiceResponse → Option (List (String × PyVal))
  | .failure => Option.none
  | .nonJson => Option.none
  | .json o => some o

/-- One accumulated result row (`all_results.append({...})`, `app.py`
lines 289–294).  `category`, `confidence` and `justification` hold whatever
raw values `analysis.get` produced. -/
structure ResultRow where
  invoice_date : Option String
  description : String
  quantity : ℚ
  carbon_kg : ℚ
  category : PyVal
  confidence : PyVal
  justification : PyVal
  source : String
deriving DecidableEq, Repr

/-- One raw line item of the cascade variant, bundled with the oracle outcomes
of the three external calls the cascade may make for it. -/
structure LineItemRaw where
  description : Option String
  quantity : Option PyVal
  hintResp : ServiceResponse
  unitJudgeResp : ServiceResponse
  fallbackResp : ServiceResponse
deriving DecidableEq, Repr

/-- The justification string built on the validated-reference branch. -/
def validatedJustification (row : AdemeRow) : String :=
  "Correspondance validée. Produit ADEME : \x27" ++ row.nom ++ "\x27. Unité : " ++ row.unite ++ "."

/-- The `analysis` dict built on the validated-reference branch (`app.py`
lines 269–274). -/
def ademeAnalysis (row : AdemeRow) : List (String × PyVal) :=
  [("category", .str (row.typeLigne.getD "ADEME")),
   ("estimated_factor_kgCO2e_per_unit", .num row.total),
   ("justification", .str (validatedJustification row)),
   ("confidence_score", .num 0.95)]

/-- Steps 1–3 of the per-item cascade (`app.py` lines 252–274): structured
hint, reference match, unit validation.  `some analysis` is the validated
reference analysis dict, `none` means the cascade falls through to the
fallback estimator. -/
def refAnalysis (tbl : Option (List AdemeRow)) (item : LineItemRaw) :
    Except Unit (Option (List (String × PyVal))) :=
  let description := item.description.getD "N/A"
  match get_structured_info_from_llm item.hintResp with
  | Option.none => .ok Option.none
  | some structuredInfo =>
    if structuredInfo.isEmpty then .ok Option.none
    else do
      let keywords := (alistGet structuredInfo "keywords").getD .none
      let invoice_unit := (alistGet structuredInfo "unit").getD (.str "unité")
      match ← search_ademe_base_carbone keywords tbl with
      | Option.none => pure Option.none
      | some bestMatch => do
        let cu ← are_units_compatible description invoice_unit bestMatch.unite item.unitJudgeResp
        if truthy cu.1 then pure (some (ademeAnalysis bestMatch))
        else pure Option.none

/-- The expression `float(item.get('quantity', 1))`. -/
def coerceQuantity (item : LineItemRaw) : Except Unit ℚ :=
  pyFloat (item.quantity.getD (.num 1))

/-- Embedding of the per-item cascade plus row emission (`app.py` lines
248–294).  `.ok (some row)` appends a row, `.ok none` emits nothing for the
item, `.error` models an uncaught Python exception. -/
def processItem (tbl : Option (List AdemeRow)) (invoice_date : Option String)
    (item : LineItemRaw) : Except Unit (Option ResultRow) := do
  let description := item.description.getD "N/A"
  let ra ← refAnalysis tbl item
  let sa : String × Option (List (String × PyVal)) ←
    match ra with
    | some a => pure ("ADEME (Validé)", some a)
    | Option.none => do
        let _ ← coerceQuantity item
        pure ("IA (Estimation)", get_carbon_analysis_from_llm item.fallbackResp)
  match sa.2 with
  | Option.none => pure Option.none
  | some analysis =>
    if analysis.isEmpty then pure Option.none
    else do
      let factor := (alistGet analysis "estimated_factor_kgCO2e_per_unit").getD (.num 0)
      let quantity ← coerceQuantity item
      let carbon_kg ← pyMulFloat quantity factor
      pure (some {
        invoice_date := invoice_date
        description := description
        quantity := quantity
        carbon_kg := carbon_kg
        category := (alistGet analysis "category").getD (.str "Non classé")
        confidence := (alistGet analysis "confidence_score").getD (.num 0)
        justification := (alistGet analysis "justification").getD (.str "N/A")
        source := sa.1 })

/-- Result of `extract_invoice_data_from_pdf` when it produced a dict:
`invoice_date = extracted_data.get("invoice_date")` and the optional
`line_items` key. -/
structure ExtractedData where
  invoice_date : Option String
  line_items : Option (List LineItemRaw)
deriving DecidableEq

/-- One uploaded document of the cascade variant, carrying the overall outcome
of its `extract_invoice_data_from_pdf` call.  The function's own `try` covers
only the generate/parse step (caught failures return `None`, here
`.ok Option.none`); `genai.upload_file` runs BEFORE the `try` and
`genai.delete_file` runs in the `finally`, so either of them raising
propagates uncaught out of the function (here `.error ()`), even overriding a
`return`.  `.ok (some d)` is a parsed dict. -/
structure DocInput where
  extracted : Except Unit (Option ExtractedData)
deriving DecidableEq

/-- The per-document body of the batch loop (`app.py` lines 235–294): an
extraction that raises uncaught propagates (there is no `try` in the loop); a
caught extraction failure or a dict without `line_items` contributes no rows;
otherwise each line item is processed in order. -/
def processDocument (tbl : Option (List AdemeRow)) (doc : DocInput) :
    Except Unit (List ResultRow) := do
  let extracted_data ← doc.extracted
  match extracted_data with
  | Option.none => pure []
  | some d =>
    match d.line_items with
    | Option.none => pure []
    | some items =>
      items.foldlM (fun acc it => do
        match ← processItem tbl d.invoice_date it with
        | some r => pure (acc ++ [r])
        | Option.none => pure acc) []

/-- The batch loop over uploaded files (`app.py` lines 229–297), accumulating
`all_results` across documents. -/
def runBatch (tbl : Option (List AdemeRow)) (docs : List DocInput) :
    Except Unit (List ResultRow) :=
  docs.foldlM (fun acc doc => do
    let rows ← processDocument tbl doc
    pure (acc ++ rows)) []

/-- Rows a document contributes when the batch survives: the `.ok` payload of
its processing, `[]` if it errors. -/
def docResults (tbl : Option (List AdemeRow)) (doc : DocInput) : List ResultRow :=
  match processDocument tbl doc with
  | .ok rows => rows
  | .error _ => []

/-- Helper for `dropDuplicates`: drop every element already seen. -/
def dropDupAux {α : Type} [DecidableEq α] (seen : List α) : List α → List α
  | [] => []
  | x :: xs => if x ∈ seen then dropDupAux seen xs else x :: dropDupAux (x :: seen) xs

/-- Pandas `drop_duplicates()` with default `keep=first`: keep the first
occurrence of every distinct row. -/
def dropDuplicates {α : Type} [DecidableEq α] (l : List α) : List α :=
  dropDupAux [] l

/-- The batch merge (`app.py` line 301):
`pd.concat([acc, new]).drop_duplicates()`. -/
def mergeResults (acc new : List ResultRow) : List ResultRow :=
  dropDuplicates (acc ++ new)

/-- One parsed line item of the generic-API variant: a Python dict. -/
abbrev SItem := List (String × PyVal)

/-- Column map built by `parse_csv_invoice` (`streamlit_carbon_app.py` lines
57–63): description / quantity / unit_price / unit, each the LAST column whose
lowercased name matches the substring vocabulary. -/
structure ColMap where
  description : Option String
  quantity : Option String
  unit_price : Option String
  unit : Option String
deriving DecidableEq

/-- One iteration of the `for c in df.columns` loop filling `col_map`. -/
def colMapStep (m : ColMap) (c : String) : ColMap :=
  let lc := lowerStr c
  let m := if strContains lc "desc" || strContains lc "product" then { m with description := some c } else m
  let m := if strContains lc "qty" || strContains lc "quantity" then { m with quantity := some c } else m
  let m := if strContains lc "unit_price" || strContains lc "price" then { m with unit_price := some c } else m
  if strContains lc "unit" then { m with unit := some c } else m

/-- The `for c in df.columns` loop filling `col_map`. -/
def buildColMap (cols : List String) : ColMap :=
  cols.foldl colMapStep ⟨Option.none, Option.none, Option.none, Option.none⟩

/-- Pandas `row[c]` on a row of a dataframe with columns `cols`: the cell at
the first column named `c`; a missing column or short row raises. -/
def rowGet (cols : List String) (cells : List PyVal) (c : String) : Except Unit PyVal :=
  match cols.findIdx? (fun c0 => c0 = c) with
  | some i =>
    match cells.get? i with
    | some v => .ok v
    | Option.none => .error ()
  | Option.none => .error ()

/-- Python `str(v)` for the values flowing through `parse_csv_invoice`.
(Decimal rendering of numbers is simplified; no verified claim inspects a
rendered number.) -/
def pyStr : PyVal → String
  | .none => "None"
  | .bool b => if b then "True" else "False"
  | .num q => toString q.num ++ "/" ++ toString q.den
  | .str s => s
  | .list _ => "[...]"

/-- Resolve an optional mapped column with an `Except`-valued fallback
(`col_map.get(k, fallback)` where the fallback indexes `df.columns`). -/
def colOr (m : Option String) (fallback : Option String) : Except Unit String :=
  match m with
  | some c => .ok c
  | Option.none =>
    match fallback with
    | some c => .ok c
    | Option.none => .error ()

/-- The dict built for one CSV row (`streamlit_carbon_app.py` line 65), with
the source's left-to-right evaluation order; `col_map.get('unit', '')` falls
back to the empty-string column name. -/
def parseCsvRow (cols : List String) (m : ColMap) (cells : List PyVal) :
    Except Unit SItem := do
  let dcol ← colOr m.description (cols.get? 0)
  let dval ← rowGet cols cells dcol
  let qcol ← colOr m.quantity (cols.get? 1)
  let qval ← rowGet cols cells qcol
  let q ← pyFloat qval
  let uval ← rowGet cols cells (m.unit.getD "")
  let pcol ← colOr m.unit_price cols.getLast?
  let pval ← rowGet cols cells pcol
  let p ← pyFloat pval
  pure [("description", .str (pyStr dval)), ("quantity", .num q),
        ("unit", .str (pyStr uval)), ("unit_price", .num p)]

/-- Embedding of `parse_csv_invoice` (`streamlit_carbon_app.py` lines 54–66)
on a dataframe given as header columns plus rows of cells. -/
def parse_csv_invoice (cols : List String) (rows : List (List PyVal)) :
    Except Unit (List SItem) :=
  let m := buildColMap cols
  rows.mapM (parseCsvRow cols m)

/-- The quantity expression of `compute_carbon`
(`streamlit_carbon_app.py` line 71): `float(it.get('quantity', 1.0) or 1.0)`. -/
def sQuantity (it : SItem) : Except Unit ℚ :=
  let v := (alistGet it "quantity").getD (.num 1)
  pyFloat (if truthy v then v else .num 1)

/-- One uploaded file of the generic-API variant, carrying the oracle outcomes
of its extraction / decoding / invoice-API calls (`.error` models the
`RuntimeError` the helper raises). -/
inductive SFile where
  | pdf (extractOutcome : Except String String) (apiResp : Except String (List SItem))
  | csv (cols : List String) (rows : List (List PyVal))
  | txt (decoded : Except String String) (apiResp : Except String (List SItem))

/-- The per-file item extraction of the analysis button handler
(`streamlit_carbon_app.py` lines 171–177): pdf text is extracted then sent to
the invoice API unless blank; csv files go through `parse_csv_invoice`; other
files are decoded then sent to the invoice API. -/
def processOneFile : SFile → Except String (List SItem)
  | .pdf extractOutcome apiResp => do
    let invoice_text ← extractOutcome
    if pyStrip invoice_text ≠ "" then apiResp else pure []
  | .csv cols rows =>
    match parse_csv_invoice cols rows with
    | .ok items => .ok items
    | .error _ => .error "parse_csv_invoice raised"
  | .txt decoded apiResp => do
    let _ ← decoded
    apiResp

/-- The analysis button handler's accumulation loop
(`streamlit_carbon_app.py` lines 163–181): one `try` wraps the loop over ALL
uploaded files, so the first raising file aborts the whole accumulation. -/
def analysisButtonHandler (files : List SFile) : Except String (List SItem) :=
  files.foldlM (fun all_items f => do
    let items ← processOneFile f
    pure (all_items ++ items)) []

/-- Concrete reference row used by witnesses: a train row whose name shares the
token `train` with the example keyword set. -/
def trainRow : AdemeRow :=
  { nom := "Train régional, par passager.km", unite := "passager.km",
    total := 3/100, typeLigne := some "Elément" }

/-- Concrete reference row used by witnesses: a steel row sharing no token with
the example keyword set. -/
def steelRow : AdemeRow :=
  { nom := "Acier neuf", unite := "kg", total := 2, typeLigne := Option.none }

/-- Witness line item: full validated-reference path (hint, match, compatible
units), quantity 2. -/
def trainItem : LineItemRaw :=
  { description := some "Billet de train Paris-Lyon"
    quantity := some (.num 2)
    hintResp := .json [("keywords", .list ["train", "transport", "voyageur"]), ("unit", .str "trajet")]
    unitJudgeResp := .json [("compatible", .bool true)]
    fallbackResp := .failure }

/-- Witness line item: no structured hint, fallback response is a JSON object
missing every required field. -/
def missingFieldsItem : LineItemRaw :=
  { description := some "Prestation de service"
    quantity := Option.none
    hintResp := .failure
    unitJudgeResp := .failure
    fallbackResp := .json [("category", .str "Achat")] }

/-- Witness line item: non-numeric quantity string on the fallback path. -/
def badQuantityItem : LineItemRaw :=
  { description := some "Lot divers"
    quantity := some (.str "N/A")
    hintResp := .failure
    unitJudgeResp := .failure
    fallbackResp := .json [("estimated_factor_kgCO2e_per_unit", .num 2)] }

/-- Witness line item: no structured hint, fallback estimation succeeds. -/
def noHintItem : LineItemRaw :=
  { description := some "Papier A4"
    quantity := some (.num 10)
    hintResp := .failure
    unitJudgeResp := .failure
    fallbackResp := .json [("category", .str "Papier"),
      ("estimated_factor_kgCO2e_per_unit", .num (1/2)),
      ("justification", .str "estimation"), ("confidence_score", .num (3/5))] }

/-- Witness file whose PDF text extraction raises. -/
def badPdfFile : SFile := .pdf (.error "Erreur lors de la lecture du fichier PDF") (.ok [])

/-- Witness file that decodes and yields one parsed item. -/
def goodTxtFile : SFile := .txt (.ok "facture papier") (.ok [[("description", .str "Paper ream"), ("quantity", .num 10)]])

/-- Witness result row used by the deduplication claim. -/
def sampleRow (k : ℚ) : ResultRow :=
  { invoice_date := some "2025-01-01", description := "Papier A4", quantity := 10,
    carbon_kg := k, category := .str "Papier", confidence := .num (3/5),
    justification := .str "estimation", source := "IA (Estimation)" }

/-- Witness line item: hint extraction yields no JSON and the fallback
estimation call fails. -/
def failedEstimationItem : LineItemRaw :=
  { description := some "Prestation inconnue"
    quantity := some (.num 4)
    hintResp := .nonJson
    unitJudgeResp := .failure
    fallbackResp := .failure }

/-- Witness document whose extraction failure was caught inside the function
(it returned `None`). -/
def failedExtractionDoc : DocInput := { extracted := .ok Option.none }

/-- Witness document whose extraction raised uncaught (e.g. `genai.upload_file`
or the `finally` cleanup failed). -/
def raisingExtractionDoc : DocInput := { extracted := .error () }

/-- Witness document with one fallback-estimated line item. -/
def paperDoc : DocInput :=
  { extracted := .ok (some { invoice_date := some "2025-02-01", line_items := some [noHintItem] }) }

/-- Maximal `rowScore` over a table (0 for an empty table), the value the
search loop's `max_score` reaches after a full scan. -/
def maxScoreList (searchTerms : List String) (tbl : List AdemeRow) : ℕ :=
  (tbl.map (rowScore searchTerms)).foldr max 0

lemma maxScoreList_cons (terms : List String) (row : AdemeRow) (rest : List AdemeRow) :
    maxScoreList terms (row :: rest) = max (rowScore terms row) (maxScoreList terms rest) := rfl

lemma bestAux_snd (terms : List String) (l : List AdemeRow) :
    ∀ (b : Option AdemeRow) (m : ℕ), (bestAux terms b m l).2 = max m (maxScoreList terms l) := by
  induction l with
  | nil => intro b m; simp [bestAux, maxScoreList]
  | cons row rest ih =>
    intro b m
    rw [maxScoreList_cons]
    by_cases h : m < rowScore terms row
    · rw [bestAux, if_pos h, ih]; omega
    · rw [bestAux, if_neg h, ih]; omega

lemma bestAux_fst_of_le (terms : List String) (l : List AdemeRow) :
    ∀ (b : Option AdemeRow) (m : ℕ), maxScoreList terms l ≤ m → (bestAux terms b m l).1 = b := by
  induction l with
  | nil => intro b m _; rfl
  | cons row rest ih =>
    intro b m hle
    rw [maxScoreList_cons] at hle
    rw [bestAux, if_neg (by omega)]
    exact ih b m (by omega)

lemma bestAux_fst_of_lt (terms : List String) (l : List AdemeRow) :
    ∀ (b : Option AdemeRow) (m : ℕ), m < maxScoreList terms l →
      (bestAux terms b m l).1 =
        l.find? (fun r => rowScore terms r = maxScoreList terms l) := by
  induction l with
  | nil => intro b m hm; simp [maxScoreList] at hm
  | cons row rest ih =>
    intro b m hm
    rw [maxScoreList_cons] at hm
    by_cases h : m < rowScore terms row
    · rw [bestAux, if_pos h]
      by_cases h2 : maxScoreList terms rest ≤ rowScore terms row
      · rw [bestAux_fst_of_le terms rest (some row) (rowScore terms row) h2]
        rw [List.find?_cons_of_pos _ (by simp [maxScoreList_cons]; omega)]
      · push_neg at h2
        rw [ih (some row) (rowScore terms row) h2]
        rw [List.find?_cons_of_neg _ (by simp [maxScoreList_cons]; omega)]
        congr 1
        funext r
        simp [maxScoreList_cons]
        constructor <;> intro hr <;> omega
    · push_neg at h
      have h3 : m < maxScoreList terms rest := by omega
      rw [bestAux, if_neg (by omega)]
      rw [ih b m h3]
      rw [List.find?_cons_of_neg _ (by simp [maxScoreList_cons]; omega)]
      congr 1
      funext r
      simp [maxScoreList_cons]
      constructor <;> intro hr <;> omega

lemma exceptOkBind {e a b : Type} (x : a) (f : a → Except e b) :
    ((Except.ok x : Except e a) >>= f) = f x := rfl

lemma exceptErrorBind {e a b : Type} (u : e) (f : a → Except e b) :
    ((Except.error u : Except e a) >>= f) = .error u := rfl

/-- C2: for every non-empty keyword list and loaded reference table,
`search_ademe_base_carbone` scores rows by the size of the intersection of the
lowercased keyword set with the word set of the lowercased row name, keeps the
first row attaining the strictly highest score, and returns it exactly when
that score reaches `max(1, |keyword set| // 2)`; otherwise it returns no
match.  (The claim's `number_of_query_keywords` is the size of the
deduplicated lowercased keyword set, `len(search_terms)` in the source.) -/
theorem C2_reference_matcher_characterization (ks : List String) (tbl : List AdemeRow)
    (hne : ks ≠ []) :
    search_ademe_base_carbone (.list ks) (some tbl) =
      .ok (if max 1 ((kwSetOf ks).length / 2) ≤ maxScoreList (kwSetOf ks) tbl
           then tbl.find? (fun r => rowScore (kwSetOf ks) r = maxScoreList (kwSetOf ks) tbl)
           else Option.none) := by
  have htruthy : truthy (.list ks) = true := by simp [truthy, hne]
  have hb2 : (bestAux (kwSetOf ks) Option.none 0 tbl).2 = maxScoreList (kwSetOf ks) tbl := by
    rw [bestAux_snd]; omega
  simp only [search_ademe_base_carbone, htruthy, Bool.not_true, Bool.false_eq_true, if_false,
    iterStrs, exceptOkBind, hb2]
  by_cases hc : max 1 ((kwSetOf ks).length / 2) ≤ maxScoreList (kwSetOf ks) tbl
  · rw [if_pos hc, if_pos hc]
    have h0 : 0 < maxScoreList (kwSetOf ks) tbl := by omega
    rw [bestAux_fst_of_lt (kwSetOf ks) tbl Option.none 0 h0]
    rfl
  · rw [if_neg hc, if_neg hc]
    rfl

/-- Witness for C2 at the spec's threshold-boundary example: two keywords, a
row sharing one token is returned, and the characterization evaluates. -/
theorem C2_reference_matcher_characterization_witness :
    (["train", "transport"] : List String) ≠ [] ∧
    search_ademe_base_carbone (.list ["train", "transport"]) (some [steelRow, trainRow]) =
      .ok (if max 1 ((kwSetOf ["train", "transport"]).length / 2) ≤
              maxScoreList (kwSetOf ["train", "transport"]) [steelRow, trainRow]
           then ([steelRow, trainRow]).find?
              (fun r => rowScore (kwSetOf ["train", "transport"]) r =
                maxScoreList (kwSetOf ["train", "transport"]) [steelRow, trainRow])
           else Option.none) :=
  ⟨by decide, C2_reference_matcher_characterization _ _ (by decide)⟩

/-- C6: whenever the two unit strings are equal after lowercasing and removing
space characters, `are_units_compatible` returns `True` on the fast path with
no external service call (second component `false`), for every description and
every would-be service response. -/
theorem C6_unit_fast_path (desc u1 u2 : String) (resp : ServiceResponse)
    (h : removeSpaces (lowerStr u1) = removeSpaces (lowerStr u2)) :
    are_units_compatible desc (.str u1) u2 resp = .ok (.bool true, false) := by
  simp only [are_units_compatible, asStr, exceptOkBind, if_pos h]; rfl

/-- Witness for C6 at the spec's example pair `("m²", "m²")`. -/
theorem C6_unit_fast_path_witness :
    removeSpaces (lowerStr "m²") = removeSpaces (lowerStr "m²") ∧
    are_units_compatible "Réservation de stand" (.str "m²") "m²" .failure =
      .ok (.bool true, false) :=
  ⟨rfl, C6_unit_fast_path _ _ _ _ rfl⟩

/-- C7: on the external-service path (units not fast-path equal), a failed
call, a response without a JSON object, or a JSON object without the
`compatible` field each yield `False` (fail closed), and the function returns
`True` only when the response is a JSON object mapping `compatible` to
exactly `true`. -/
theorem C7_unit_judge_fail_closed (desc u1 u2 : String)
    (hne : removeSpaces (lowerStr u1) ≠ removeSpaces (lowerStr u2)) :
    are_units_compatible desc (.str u1) u2 .failure = .ok (.bool false, true) ∧
    are_units_compatible desc (.str u1) u2 .nonJson = .ok (.bool false, true) ∧
    (∀ o, alistGet o "compatible" = Option.none →
      are_units_compatible desc (.str u1) u2 (.json o) = .ok (.bool false, true)) ∧
    (∀ resp v c, are_units_compatible desc (.str u1) u2 resp = .ok (v, c) →
      v = .bool true →
      ∃ o, resp = .json o ∧ alistGet o "compatible" = some (.bool true)) := by
  refine ⟨?_, ?_, ?_, ?_⟩
  · simp only [are_units_compatible, asStr, exceptOkBind, if_neg hne]; rfl
  · simp only [are_units_compatible, asStr, exceptOkBind, if_neg hne]; rfl
  · intro o ho
    simp only [are_units_compatible, asStr, exceptOkBind, if_neg hne, ho, Option.getD_none]
    rfl
  · intro resp v c h hv
    subst hv
    cases resp with
    | failure =>
      simp only [are_units_compatible, asStr, exceptOkBind, if_neg hne] at h
      cases h
    | nonJson =>
      simp only [are_units_compatible, asStr, exceptOkBind, if_neg hne] at h
      cases h
    | json o =>
      refine ⟨o, rfl, ?_⟩
      simp only [are_units_compatible, asStr, exceptOkBind, if_neg hne] at h
      cases halist : alistGet o "compatible" with
      | none => rw [halist] at h; cases h
      | some w =>
        rw [halist] at h
        simp only [Option.getD_some] at h
        have hw : w = PyVal.bool true := by
          have := congrArg (fun x => match x with | Except.ok (p : PyVal × Bool) => p.1 | _ => PyVal.none) h
          simpa using this
        rw [hw]

/-- Witness for C7 at the unit pair `("trajet", "passager.km")` with a failed
service call. -/
theorem C7_unit_judge_fail_closed_witness :
    removeSpaces (lowerStr "trajet") ≠ removeSpaces (lowerStr "passager.km") ∧
    are_units_compatible "Billet de train Paris-Lyon" (.str "trajet") "passager.km" .failure =
      .ok (.bool false, true) :=
  ⟨by decide, (C7_unit_judge_fail_closed _ _ _ (by decide)).1⟩

lemma mem_dropDupAux {α : Type} [DecidableEq α] (l : List α) :
    ∀ (seen : List α) (x : α), x ∈ dropDupAux seen l ↔ (x ∈ l ∧ x ∉ seen) := by
  induction l with
  | nil => intro seen x; simp [dropDupAux]
  | cons a as ih =>
    intro seen x
    by_cases ha : a ∈ seen
    · rw [dropDupAux, if_pos ha, ih]
      constructor
      · rintro ⟨hx, hs⟩; exact ⟨List.mem_cons_of_mem a hx, hs⟩
      · rintro ⟨hx, hs⟩
        cases List.mem_cons.mp hx with
        | inl he => exact absurd (he ▸ ha) hs
        | inr hm => exact ⟨hm, hs⟩
    · rw [dropDupAux, if_neg ha]
      by_cases hxa : x = a
      · subst hxa
        constructor
        · intro _; exact ⟨List.mem_cons_self x as, ha⟩
        · intro _; exact List.mem_cons_self x _
      · simp only [List.mem_cons, hxa, false_or]
        rw [ih]
        simp [List.mem_cons, hxa]

lemma nodup_dropDupAux {α : Type} [DecidableEq α] (l : List α) :
    ∀ seen : List α, (dropDupAux seen l).Nodup := by
  induction l with
  | nil => intro seen; simp [dropDupAux]
  | cons a as ih =>
    intro seen
    by_cases ha : a ∈ seen
    · rw [dropDupAux, if_pos ha]; exact ih seen
    · rw [dropDupAux, if_neg ha]
      rw [List.nodup_cons]
      refine ⟨?_, ih (a :: seen)⟩
      rw [mem_dropDupAux]
      rintro ⟨-, hs⟩
      exact hs (List.mem_cons_self a seen)

lemma mem_mergeResults (acc new : List ResultRow) (x : ResultRow) :
    x ∈ mergeResults acc new ↔ x ∈ acc ++ new := by
  unfold mergeResults dropDuplicates
  rw [mem_dropDupAux]
  simp

/-- C8: merging a new batch into the accumulated collection drops exact
duplicates (full field equality) and never discards prior rows: any row
already present ends up with multiplicity exactly one, and every row of either
side is still present after the merge. -/
theorem C8_merge_dedup_preserves (acc new : List ResultRow) (r : ResultRow) (h : r ∈ acc) :
    (mergeResults acc new).count r = 1 ∧
    (∀ x ∈ acc, x ∈ mergeResults acc new) ∧
    (∀ x ∈ new, x ∈ mergeResults acc new) := by
  have hnd : (mergeResults acc new).Nodup := nodup_dropDupAux _ _
  refine ⟨List.count_eq_one_of_mem hnd ((mem_mergeResults acc new r).mpr ?_), ?_, ?_⟩
  · exact List.mem_append_left _ h
  · intro x hx; exact (mem_mergeResults acc new x).mpr (List.mem_append_left _ hx)
  · intro x hx; exact (mem_mergeResults acc new x).mpr (List.mem_append_right _ hx)

/-- Witness for C8: re-appending an already-present row leaves exactly one
copy. -/
theorem C8_merge_dedup_preserves_witness :
    sampleRow 5 ∈ [sampleRow 5] ∧
    (mergeResults [sampleRow 5] [sampleRow 5, sampleRow 7]).count (sampleRow 5) = 1 :=
  ⟨List.mem_singleton_self _, (C8_merge_dedup_preserves _ _ _ (List.mem_singleton_self _)).1⟩

lemma exceptPure {e a : Type} (x : a) : (pure x : Except e a) = .ok x := rfl

lemma exceptPureBind {e a b : Type} (x : a) (f : a → Except e b) :
    ((pure x : Except e a) >>= f) = f x := rfl

lemma refAnalysis_validated (tbl : Option (List AdemeRow)) (item : LineItemRaw)
    (o : List (String × PyVal)) (row : AdemeRow) (v : PyVal) (b : Bool)
    (hhint : get_structured_info_from_llm item.hintResp = some o)
    (hne : o ≠ [])
    (hsearch : search_ademe_base_carbone ((alistGet o "keywords").getD .none) tbl = .ok (some row))
    (hjudge : are_units_compatible (item.description.getD "N/A")
      ((alistGet o "unit").getD (.str "unité")) row.unite item.unitJudgeResp = .ok (v, b))
    (htrue : truthy v = true) :
    refAnalysis tbl item = .ok (some (ademeAnalysis row)) := by
  have hoe : o.isEmpty = false := by
    cases o with
    | nil => exact absurd rfl hne
    | cons x xs => rfl
  simp only [refAnalysis, hhint, hoe, Bool.false_eq_true, if_false, hsearch, exceptOkBind,
    hjudge, htrue, if_true]
  rfl

/-- C1: whenever the structured hint is present, the reference search finds a
row and the unit judge answers a truthy value, the emitted result row carries
source `ADEME (Validé)` (= REFERENCE_VALIDATED), `carbon_kg` exactly equal to
the coerced quantity times the matched row's emission factor, and confidence
fixed at 0.95. -/
theorem C1_reference_validated_row (tbl : Option (List AdemeRow)) (date : Option String)
    (item : LineItemRaw) (o : List (String × PyVal)) (row : AdemeRow) (v : PyVal) (b : Bool)
    (q : ℚ)
    (hhint : get_structured_info_from_llm item.hintResp = some o)
    (hne : o ≠ [])
    (hsearch : search_ademe_base_carbone ((alistGet o "keywords").getD .none) tbl = .ok (some row))
    (hjudge : are_units_compatible (item.description.getD "N/A")
      ((alistGet o "unit").getD (.str "unité")) row.unite item.unitJudgeResp = .ok (v, b))
    (htrue : truthy v = true)
    (hq : coerceQuantity item = .ok q) :
    processItem tbl date item = .ok (some {
      invoice_date := date
      description := item.description.getD "N/A"
      quantity := q
      carbon_kg := q * row.total
      category := .str (row.typeLigne.getD "ADEME")
      confidence := .num 0.95
      justification := .str (validatedJustification row)
      source := "ADEME (Validé)" }) := by
  have hra := refAnalysis_validated tbl item o row v b hhint hne hsearch hjudge htrue
  simp only [processItem, hra, exceptOkBind, hq]
  simp only [ademeAnalysis, alistGet, List.find?, List.isEmpty_cons, Bool.false_eq_true, if_false]
  norm_num
  rfl

/-- Witness for C1 on the end-to-end train scenario: quantity 2, matched
factor 3/100, emitted carbon exactly 2 * (3/100). -/
theorem C1_reference_validated_row_witness :
    get_structured_info_from_llm trainItem.hintResp =
      some [("keywords", .list ["train", "transport", "voyageur"]), ("unit", .str "trajet")] ∧
    search_ademe_base_carbone
      ((alistGet [("keywords", PyVal.list ["train", "transport", "voyageur"]),
        ("unit", PyVal.str "trajet")] "keywords").getD .none)
      (some [steelRow, trainRow]) = .ok (some trainRow) ∧
    coerceQuantity trainItem = .ok 2 ∧
    processItem (some [steelRow, trainRow]) (some "2025-03-01") trainItem = .ok (some {
      invoice_date := some "2025-03-01"
      description := "Billet de train Paris-Lyon"
      quantity := 2
      carbon_kg := 2 * trainRow.total
      category := .str "Elément"
      confidence := .num 0.95
      justification := .str (validatedJustification trainRow)
      source := "ADEME (Validé)" }) :=
  ⟨rfl, rfl, rfl,
    C1_reference_validated_row (some [steelRow, trainRow]) (some "2025-03-01") trainItem
      [("keywords", .list ["train", "transport", "voyageur"]), ("unit", .str "trajet")]
      trainRow (.bool true) true 2 rfl (by decide) rfl rfl rfl rfl⟩

/-- C5: when the keyword extractor yields no structured hint, the cascade's
reference stage resolves to nothing, the outcome is independent of the loaded
reference table (the matcher is never consulted), and any emitted row carries
source `IA (Estimation)` — never `ADEME (Validé)`. -/
theorem C5_no_hint_skips_reference_path (tbl tbl' : Option (List AdemeRow))
    (date : Option String) (item : LineItemRaw)
    (hhint : get_structured_info_from_llm item.hintResp = Option.none) :
    refAnalysis tbl item = .ok Option.none ∧
    processItem tbl date item = processItem tbl' date item ∧
    (∀ r, processItem tbl date item = .ok (some r) → r.source = "IA (Estimation)") := by
  have hra : ∀ t : Option (List AdemeRow), refAnalysis t item = .ok Option.none := by
    intro t; simp only [refAnalysis, hhint]
  refine ⟨hra tbl, ?_, ?_⟩
  · simp only [processItem, hra]
  · intro r h
    simp only [processItem, hra, exceptOkBind] at h
    cases hq : coerceQuantity item with
    | error e => rw [hq] at h; cases h
    | ok q =>
      rw [hq] at h
      simp only [exceptOkBind] at h
      simp only [exceptPureBind] at h
      cases hga : get_carbon_analysis_from_llm item.fallbackResp with
      | none =>
        rw [hga] at h
        simp only [exceptPure, Except.ok.injEq] at h
        cases h
      | some a =>
        rw [hga] at h
        by_cases he : a.isEmpty = true
        · simp only [he, if_true, exceptPure, Except.ok.injEq] at h
          cases h
        · simp only [he, Bool.false_eq_true, if_false, hq, exceptOkBind] at h
          cases hc : pyMulFloat q ((alistGet a "estimated_factor_kgCO2e_per_unit").getD (.num 0)) with
          | error e => rw [hc] at h; cases h
          | ok ck =>
            rw [hc] at h
            simp only [exceptOkBind, exceptPure, Except.ok.injEq, Option.some.injEq] at h
            subst h
            rfl

/-- Witness for C5: a failed hint extraction routes a concrete item straight
to fallback, independently of the table. -/
theorem C5_no_hint_skips_reference_path_witness :
    get_structured_info_from_llm noHintItem.hintResp = Option.none ∧
    (refAnalysis (some [steelRow, trainRow]) noHintItem = .ok Option.none ∧
     processItem (some [steelRow, trainRow]) Option.none noHintItem =
       processItem Option.none Option.none noHintItem ∧
     (∀ r, processItem (some [steelRow, trainRow]) Option.none noHintItem = .ok (some r) →
       r.source = "IA (Estimation)")) :=
  ⟨rfl, C5_no_hint_skips_reference_path _ _ _ _ rfl⟩

/-- C3 counterexample: the claim says a fallback response that is JSON but
missing the required fields yields no result row; on this concrete item the
code DOES emit a row, with the missing factor defaulted to 0 and confidence 0.
-/
theorem C3_counterexample_missing_fields_row_emitted :
    processItem Option.none Option.none missingFieldsItem = .ok (some {
      invoice_date := Option.none
      description := "Prestation de service"
      quantity := 1
      carbon_kg := 1 * 0
      category := .str "Achat"
      confidence := .num 0
      justification := .str "N/A"
      source := "IA (Estimation)" }) := rfl

/-- C3 amended: on the fallback path, a failed service call, a response
without a JSON object, or an EMPTY JSON object each emit no result row for the
item (a non-empty object, even one missing required fields, does emit a row).
-/
theorem C3_amended_no_row_on_failed_estimation (tbl : Option (List AdemeRow))
    (date : Option String) (item : LineItemRaw)
    (hra : refAnalysis tbl item = .ok Option.none)
    (hresp : item.fallbackResp = .failure ∨ item.fallbackResp = .nonJson ∨
      item.fallbackResp = .json []) :
    ∀ r, processItem tbl date item ≠ .ok (some r) := by
  intro r h
  simp only [processItem, hra, exceptOkBind] at h
  cases hq : coerceQuantity item with
  | error e => rw [hq] at h; cases h
  | ok q =>
    rw [hq] at h
    simp only [exceptOkBind, exceptPureBind] at h
    have hga : get_carbon_analysis_from_llm item.fallbackResp = Option.none ∨
        get_carbon_analysis_from_llm item.fallbackResp = some [] := by
      rcases hresp with h1 | h1 | h1 <;> rw [h1] <;> simp [get_carbon_analysis_from_llm]
    rcases hga with hga | hga
    · rw [hga] at h
      simp only [exceptPure, Except.ok.injEq] at h
      cases h
    · rw [hga] at h
      simp only [List.isEmpty_nil, if_true, exceptPure, Except.ok.injEq] at h
      cases h

/-- Witness for the amended C3: a concrete item whose estimation call fails
emits no row. -/
theorem C3_amended_no_row_on_failed_estimation_witness :
    refAnalysis Option.none failedEstimationItem = .ok Option.none ∧
    failedEstimationItem.fallbackResp = .failure ∧
    (∀ r, processItem Option.none Option.none failedEstimationItem ≠ .ok (some r)) :=
  ⟨rfl, rfl, C3_amended_no_row_on_failed_estimation _ _ _ rfl (Or.inl rfl)⟩

/-- C4 counterexample: in the generic-API variant one `try` wraps the loop
over all files, so a PDF-extraction failure on the first file aborts the
batch; the second file, which on its own yields an item, contributes nothing.
-/
theorem C4_counterexample_batch_aborted :
    analysisButtonHandler [badPdfFile, goodTxtFile] =
      .error "Erreur lors de la lecture du fichier PDF" ∧
    analysisButtonHandler [goodTxtFile] =
      .ok [[("description", .str "Paper ream"), ("quantity", .num 10)]] :=
  ⟨rfl, rfl⟩

lemma runBatch_append (tbl : Option (List AdemeRow)) (docs : List DocInput) :
    ∀ acc : List ResultRow,
    (∀ d ∈ docs, processDocument tbl d ≠ .error ()) →
    (docs.foldlM (fun acc doc => do
      let rows ← processDocument tbl doc
      pure (acc ++ rows)) acc) = .ok (acc ++ (docs.map (docResults tbl)).flatten) := by
  induction docs with
  | nil => intro acc _; simp [List.foldlM]; rfl
  | cons d ds ih =>
    intro acc hd
    rw [List.foldlM_cons]
    cases hpd : processDocument tbl d with
    | error e => cases e; exact absurd hpd (hd d (List.mem_cons_self d ds))
    | ok rows =>
      simp only [exceptOkBind, exceptPureBind]
      rw [ih (acc ++ rows) (fun d2 hd2 => hd d2 (List.mem_cons_of_mem _ hd2))]
      simp [docResults, hpd, List.append_assoc]

/-- C4 amended: in the cascade variant (`app.py`), a document whose extraction
failure is caught inside `extract_invoice_data_from_pdf` (the generate/parse
step, which returns `None`) contributes nothing while the rest of the batch is
still processed — provided no document raises an uncaught exception.  But this
containment is only partial: an exception from `genai.upload_file` (called
before the `try`) or from `genai.delete_file` (in the `finally`) propagates
uncaught out of extraction and aborts the whole batch loop, which has no
`try` of its own — just as an item's non-numeric quantity does. -/
theorem C4_amended_document_isolation (tbl : Option (List AdemeRow)) (docs : List DocInput)
    (h : ∀ d ∈ docs, processDocument tbl d ≠ .error ()) :
    runBatch tbl docs = .ok ((docs.map (docResults tbl)).flatten) ∧
    (∀ d : DocInput, d.extracted = .ok Option.none → processDocument tbl d = .ok []) ∧
    (∀ (d : DocInput) (rest : List DocInput), d.extracted = .error () →
      runBatch tbl (d :: rest) = .error ()) := by
  refine ⟨?_, ?_, ?_⟩
  · have hh := runBatch_append tbl docs [] h
    simpa [runBatch] using hh
  · intro d hd
    simp only [processDocument, hd, exceptOkBind]
    rfl
  · intro d rest hd
    have hpd : processDocument tbl d = .error () := by
      simp only [processDocument, hd, exceptErrorBind]
    unfold runBatch
    rw [List.foldlM_cons]
    simp only [hpd, exceptErrorBind]

/-- Witness for the amended C4: a caught-failure document plus a good one are
both processed and the good rows accumulate, while a document whose extraction
raises uncaught aborts the batch even with the good document still pending. -/
theorem C4_amended_document_isolation_witness :
    (∀ d ∈ [failedExtractionDoc, paperDoc], processDocument Option.none d ≠ .error ()) ∧
    runBatch Option.none [failedExtractionDoc, paperDoc] =
      .ok (([failedExtractionDoc, paperDoc].map (docResults Option.none)).flatten) ∧
    raisingExtractionDoc.extracted = .error () ∧
    runBatch Option.none [raisingExtractionDoc, paperDoc] = .error () := by
  have h2 : processDocument Option.none paperDoc = .ok [{
      invoice_date := some "2025-02-01"
      description := "Papier A4"
      quantity := 10
      carbon_kg := 10 * (1/2)
      category := .str "Papier"
      confidence := .num (3/5)
      justification := .str "estimation"
      source := "IA (Estimation)" }] := rfl
  have hall : ∀ d ∈ [failedExtractionDoc, paperDoc], processDocument Option.none d ≠ .error () := by
    intro d hd
    rcases List.mem_cons.mp hd with rfl | hd2
    · intro hc; exact Except.noConfusion hc
    · rcases List.mem_cons.mp hd2 with rfl | hd3
      · rw [h2]; intro hc; exact Except.noConfusion hc
      · exact absurd hd3 (List.not_mem_nil d)
  exact ⟨hall, (C4_amended_document_isolation _ _ hall).1,
    rfl, (C4_amended_document_isolation _ _ hall).2.2 raisingExtractionDoc [paperDoc] rfl⟩

/-- C9 counterexample: a non-numeric quantity string makes `float(...)` raise,
so processing the item fails instead of defaulting the quantity to 1.0. -/
theorem C9_counterexample_invalid_quantity_raises :
    processItem Option.none Option.none badQuantityItem = .error () := rfl

/-- C9 amended: the quantity used for `carbon_kg` is
`float(item.get('quantity', 1))` — it defaults to 1.0 only when the field is
ABSENT (in the generic variant also when falsy, e.g. None or 0), numeric
values pass through, every emitted row's quantity is exactly this coercion,
and a non-numeric quantity string raises instead of defaulting. -/
theorem C9_amended_quantity_coercion (item : LineItemRaw) (it : SItem) :
    (item.quantity = Option.none → coerceQuantity item = .ok 1) ∧
    (∀ q : ℚ, item.quantity = some (.num q) → coerceQuantity item = .ok q) ∧
    (∀ s : String, item.quantity = some (.str s) → parseFloatStr s = Option.none →
      coerceQuantity item = .error ()) ∧
    (∀ tbl date r, processItem tbl date item = .ok (some r) →
      coerceQuantity item = .ok r.quantity) ∧
    (alistGet it "quantity" = Option.none → sQuantity it = .ok 1) ∧
    (alistGet it "quantity" = some (.num 0) → sQuantity it = .ok 1) := by
  refine ⟨?_, ?_, ?_, ?_, ?_, ?_⟩
  · intro h; simp [coerceQuantity, h, pyFloat]
  · intro q h; simp [coerceQuantity, h, pyFloat]
  · intro s h hp; simp [coerceQuantity, h, pyFloat, hp]
  · intro tbl date r h
    simp only [processItem] at h
    cases hra : refAnalysis tbl item with
    | error e =>
      rw [hra] at h; simp only [exceptErrorBind] at h; cases h
    | ok ra =>
      rw [hra] at h
      simp only [exceptOkBind] at h
      cases ra with
      | some a =>
        simp only [exceptPureBind] at h
        by_cases he : a.isEmpty = true
        · simp only [he, if_true, exceptPure, Except.ok.injEq] at h; cases h
        · simp only [he, Bool.false_eq_true, if_false] at h
          cases hq : coerceQuantity item with
          | error e => rw [hq] at h; simp only [exceptErrorBind] at h; cases h
          | ok q =>
            rw [hq] at h
            simp only [exceptOkBind] at h
            cases hc : pyMulFloat q ((alistGet a "estimated_factor_kgCO2e_per_unit").getD (.num 0)) with
            | error e => rw [hc] at h; simp only [exceptErrorBind] at h; cases h
            | ok ck =>
              rw [hc] at h
              simp only [exceptOkBind, exceptPure, Except.ok.injEq, Option.some.injEq] at h
              subst h
              rfl
      | none =>
        cases hq : coerceQuantity item with
        | error e => rw [hq] at h; simp only [exceptErrorBind] at h; cases h
        | ok q =>
          rw [hq] at h
          simp only [exceptOkBind, exceptPureBind] at h
          cases hga : get_carbon_analysis_from_llm item.fallbackResp with
          | none =>
            rw [hga] at h; simp only [exceptPure, Except.ok.injEq] at h; cases h
          | some a =>
            rw [hga] at h
            by_cases he : a.isEmpty = true
            · simp only [he, if_true, exceptPure, Except.ok.injEq] at h; cases h
            · simp only [he, Bool.false_eq_true, if_false, hq, exceptOkBind] at h
              cases hc : pyMulFloat q ((alistGet a "estimated_factor_kgCO2e_per_unit").getD (.num 0)) with
              | error e => rw [hc] at h; simp only [exceptErrorBind] at h; cases h
              | ok ck =>
                rw [hc] at h
                simp only [exceptOkBind, exceptPure, Except.ok.injEq, Option.some.injEq] at h
                subst h
                rfl
  · intro h; simp [sQuantity, h, truthy, pyFloat]
  · intro h; simp [sQuantity, h, truthy, pyFloat]

/-- Witness for the amended C9: concrete coercions, including the raising
non-numeric case. -/
theorem C9_amended_quantity_coercion_witness :
    badQuantityItem.quantity = some (.str "N/A") ∧
    parseFloatStr "N/A" = Option.none ∧
    coerceQuantity badQuantityItem = .error () ∧
    sQuantity [] = .ok 1 :=
  ⟨rfl, rfl, (C9_amended_quantity_coercion badQuantityItem []).2.2.1 "N/A" rfl rfl,
   (C9_amended_quantity_coercion badQuantityItem []).2.2.2.2.1 rfl⟩

lemma colMapStep_unit (m : ColMap) (c : String)
    (hcu : strContains (lowerStr c) "unit" = false) :
    (colMapStep m c).unit = m.unit := by
  unfold colMapStep
  simp only [hcu, Bool.false_eq_true, if_false]
  split <;> split <;> split <;> rfl

lemma buildColMap_unit_none (cols : List String)
    (h : ∀ c ∈ cols, strContains (lowerStr c) "unit" = false) :
    (buildColMap cols).unit = Option.none := by
  have hgen : ∀ (cs : List String) (m0 : ColMap),
      (∀ c ∈ cs, strContains (lowerStr c) "unit" = false) →
      (cs.foldl colMapStep m0).unit = m0.unit := by
    intro cs
    induction cs with
    | nil => intro m0 _; rfl
    | cons c cs ih =>
      intro m0 hc
      rw [List.foldl_cons]
      rw [ih _ (fun c2 h2 => hc c2 (List.mem_cons_of_mem _ h2))]
      exact colMapStep_unit m0 c (hc c (List.mem_cons_self _ _))
  exact hgen cols _ h

lemma rowGet_empty_error (cols : List String) (cells : List PyVal) (h : "" ∉ cols) :
    rowGet cols cells "" = .error () := by
  unfold rowGet
  have hidx : cols.findIdx? (fun c0 => c0 = "") = Option.none := by
    rw [List.findIdx?_eq_none_iff]
    intro x hx
    simp only [decide_eq_false_iff_not]
    exact fun he => h (he ▸ hx)
  rw [hidx]

lemma parseCsvRow_unit_error (cols : List String) (m : ColMap) (cells : List PyVal)
    (hu : m.unit = Option.none) (hrg : rowGet cols cells "" = .error ()) :
    parseCsvRow cols m cells = .error () := by
  unfold parseCsvRow
  cases h1 : colOr m.description (cols.get? 0) with
  | error e => cases e; simp only [exceptErrorBind]
  | ok dcol =>
    simp only [exceptOkBind]
    cases h2 : rowGet cols cells dcol with
    | error e => cases e; simp only [exceptErrorBind]
    | ok dval =>
      simp only [exceptOkBind]
      cases h3 : colOr m.quantity (cols.get? 1) with
      | error e => cases e; simp only [exceptErrorBind]
      | ok qcol =>
        simp only [exceptOkBind]
        cases h4 : rowGet cols cells qcol with
        | error e => cases e; simp only [exceptErrorBind]
        | ok qval =>
          simp only [exceptOkBind]
          cases h5 : pyFloat qval with
          | error e => cases e; simp only [exceptErrorBind]
          | ok q =>
            simp only [exceptOkBind]
            rw [hu]
            simp only [Option.getD_none, hrg, exceptErrorBind]

/-- C10: a CSV header with no column containing `unit` (and no empty-string
column name, which pandas never produces) makes `parse_csv_invoice` raise
while resolving the unit column, so such a file yields no items; conversely a
`unit_price` column satisfies both the `unit_price` and the `unit` mapping. -/
theorem C10_csv_unit_column_resolution (cols : List String) (rows : List (List PyVal))
    (hempty : "" ∉ cols)
    (hnounit : ∀ c ∈ cols, strContains (lowerStr c) "unit" = false)
    (hrows : rows ≠ []) :
    parse_csv_invoice cols rows = .error () ∧
    (buildColMap ["product", "qty", "unit_price"]).unit_price = some "unit_price" ∧
    (buildColMap ["product", "qty", "unit_price"]).unit = some "unit_price" := by
  refine ⟨?_, rfl, rfl⟩
  cases rows with
  | nil => exact absurd rfl hrows
  | cons r rs =>
    have hrow := parseCsvRow_unit_error cols (buildColMap cols) r
      (buildColMap_unit_none cols hnounit) (rowGet_empty_error cols r hempty)
    unfold parse_csv_invoice
    simp [List.mapM, List.mapM.loop, hrow, exceptErrorBind]

/-- Witness for C10 at the header `product,qty,price` with one data row. -/
theorem C10_csv_unit_column_resolution_witness :
    ("" ∉ ["product", "qty", "price"]) ∧
    (∀ c ∈ ["product", "qty", "price"], strContains (lowerStr c) "unit" = false) ∧
    ([[PyVal.str "Paper ream", PyVal.num 10, PyVal.num (5/2)]] ≠ ([] : List (List PyVal))) ∧
    parse_csv_invoice ["product", "qty", "price"] [[.str "Paper ream", .num 10, .num (5/2)]] =
      .error () :=
  ⟨by decide, by decide, List.cons_ne_nil _ _,
   (C10_csv_unit_column_resolution _ _ (by decide) (by decide) (List.cons_ne_nil _ _)).1⟩
